import Mathlib

/-!
Verification of the mango-client-python liquidation bot core against its
specification.  The Python sources are shallowly embedded: `Decimal`
arithmetic is modelled by exact rationals (`ℚ`), Solana public keys by
natural numbers, byte strings by `List ℕ`, and Python exceptions by
`Except String` / `Option`.  Definitions follow the structure of the
corresponding Python functions (`baseCli.py`, `LiquidationProcessor.py`,
`WalletBalancer.py`, `Retrier.py`, `Layout.py`, `Constants.py`).
-/

namespace Mango

/-! ### Constants.py -/

def NUM_TOKENS : ℕ := 3
def NUM_MARKETS : ℕ := NUM_TOKENS - 1

/-! ### Python strings

Python strings are modelled as character lists so that the string
operations used by the sources (single-character `split`, `upper`,
whitespace stripping) stay kernel-computable. -/

abbrev PyStr := List Char

/-- Python `s.split(sep)` for a single-character separator: split at
every occurrence, keeping empty pieces (so the result is always
non-empty). -/
def pySplitOn (sep : Char) : PyStr → List PyStr
  | [] => [[]]
  | c :: rest =>
    let r := pySplitOn sep rest
    if c = sep then [] :: r
    else (c :: r.headD []) :: r.tail

/-- Python `s.upper()` (ASCII, which covers the token symbols). -/
def pyToUpper (s : PyStr) : PyStr := s.map Char.toUpper

/-! ### baseCli.py data model -/

/-- `Token` from baseCli.py: symbol name, mint address, decimal precision.
The constructor uppercases the name; we model already-constructed tokens,
so `name` holds the uppercased symbol. -/
structure Token where
  name : PyStr
  mint : ℕ
  decimals : ℚ
deriving DecidableEq, Repr

instance : Inhabited Token := ⟨⟨[], 0, 0⟩⟩

/-- `Token.name_matches`: case-insensitive comparison of symbol names. -/
def Token.name_matches (t : Token) (name : PyStr) : Bool :=
  pyToUpper t.name == pyToUpper name

/-- `Token.find_by_name`: strict lookup — error on zero matches and on
more than one match, otherwise the unique match. -/
def Token.find_by_name (values : List Token) (name : PyStr) : Except String Token :=
  match values.filter (fun v => v.name_matches name) with
  | [found] => .ok found
  | [] => .error "Token not found in token values"
  | _ => .error "Token matched multiple tokens in values"

/-- `TokenValue` from baseCli.py: a token together with a quantity. -/
structure TokenValue where
  token : Token
  value : ℚ
deriving DecidableEq, Repr

/-- `TokenValue.find_by_mint`: strict lookup by mint address. -/
def TokenValue.find_by_mint (values : List TokenValue) (mint : ℕ) : Except String TokenValue :=
  match values.filter (fun v => v.token.mint == mint) with
  | [found] => .ok found
  | [] => .error "Token not found in token values"
  | _ => .error "Token matched multiple tokens in values"

/-- `TokenValue.find_by_token` delegates to the mint lookup. -/
def TokenValue.find_by_token (values : List TokenValue) (token : Token) : Except String TokenValue :=
  TokenValue.find_by_mint values token.mint

/-- `Index` from baseCli.py: borrow/deposit scaling factors (the
`last_update` timestamp is kept as a plain natural number). -/
structure Index where
  last_update : ℕ
  borrow : ℚ
  deposit : ℚ
deriving DecidableEq, Repr

instance : Inhabited Index := ⟨⟨0, 0, 0⟩⟩

/-- `BasketToken` from baseCli.py: token, vault address and index. -/
structure BasketToken where
  token : Token
  vault : ℕ
  index : Index
deriving DecidableEq, Repr

instance : Inhabited BasketToken := ⟨⟨default, 0, default⟩⟩

/-- `OpenOrders` (the fields used by the balance-sheet engine). -/
structure OpenOrders where
  base_token_free : ℚ
  base_token_total : ℚ
  quote_token_free : ℚ
  quote_token_total : ℚ
deriving DecidableEq, Repr

/-- `BalanceSheet` from baseCli.py: stored fields. -/
structure BalanceSheet where
  token : Token
  liabilities : ℚ
  settled_assets : ℚ
  unsettled_assets : ℚ
deriving DecidableEq, Repr

/-- `BalanceSheet.assets` property: settled plus unsettled assets. -/
def BalanceSheet.assets (b : BalanceSheet) : ℚ :=
  b.settled_assets + b.unsettled_assets

/-- `BalanceSheet.value` property: assets minus liabilities. -/
def BalanceSheet.value (b : BalanceSheet) : ℚ :=
  b.assets - b.liabilities

/-- `BalanceSheet.collateral_ratio` property: 0 when liabilities are zero,
otherwise assets divided by liabilities. -/
def BalanceSheet.collateral_ratio (b : BalanceSheet) : ℚ :=
  if b.liabilities = 0 then 0 else b.assets / b.liabilities

/-- `MangoAccountFlags` from baseCli.py (version field omitted). -/
structure MangoAccountFlags where
  initialized : Bool
  group : Bool
  margin_account : Bool
  srm_account : Bool
deriving DecidableEq, Repr

/-- `MarketMetadata` from baseCli.py. -/
structure MarketMetadata where
  name : PyStr
  address : ℕ
  base : BasketToken
  quote : BasketToken
  spot : ℕ
  oracle : ℕ
  decimals : ℚ
deriving DecidableEq, Repr

/-- `Group` from baseCli.py (context and logger omitted; addresses are
numbers). -/
structure Group where
  account_flags : MangoAccountFlags
  basket_tokens : List BasketToken
  markets : List MarketMetadata
  signer_nonce : ℕ
  signer_key : ℕ
  dex_program_id : ℕ
  total_deposits : List ℚ
  total_borrows : List ℚ
  maint_coll_ratio : ℚ
  init_coll_ratio : ℚ
  srm_vault : ℕ
  admin : ℕ
  borrow_limits : List ℚ
deriving DecidableEq, Repr

/-- `MarginAccount` from baseCli.py (account-info and version omitted;
`deposits`/`borrows` are the per-token native quantities). -/
structure MarginAccount where
  account_flags : MangoAccountFlags
  mango_group : ℕ
  owner : ℕ
  deposits : List ℚ
  borrows : List ℚ
  open_orders : List ℕ
  open_orders_accounts : List (Option OpenOrders)
deriving DecidableEq, Repr

/-- `MarginAccountMetadata` from baseCli.py. -/
structure MarginAccountMetadata where
  margin_account : MarginAccount
  balance_sheet : BalanceSheet
  balances : List TokenValue
deriving DecidableEq, Repr

/-- `MarginAccountMetadata.assets` property delegates to the sheet. -/
def MarginAccountMetadata.assets (m : MarginAccountMetadata) : ℚ :=
  m.balance_sheet.assets

/-- `MarginAccountMetadata.liabilities` property delegates to the sheet. -/
def MarginAccountMetadata.liabilities (m : MarginAccountMetadata) : ℚ :=
  m.balance_sheet.liabilities

/-- `MarginAccountMetadata.collateral_ratio` property delegates to the sheet. -/
def MarginAccountMetadata.collateral_ratio (m : MarginAccountMetadata) : ℚ :=
  m.balance_sheet.collateral_ratio

/-! ### LiquidationProcessor.update_prices — the three filters -/

/-- Filter of `LiquidationProcessor.update_prices` line 42: accounts whose
collateral ratio is at most the maintenance collateral ratio. -/
def liquidatableOf (group : Group) (updated : List MarginAccountMetadata) :
    List MarginAccountMetadata :=
  updated.filter (fun mam => decide (mam.balance_sheet.collateral_ratio ≤ group.maint_coll_ratio))

/-- Filter of `LiquidationProcessor.update_prices` line 45: liquidatable
accounts whose collateral ratio exceeds 1. -/
def aboveWaterOf (liquidatable : List MarginAccountMetadata) :
    List MarginAccountMetadata :=
  liquidatable.filter (fun mam => decide (1 < mam.collateral_ratio))

/-- Filter of `LiquidationProcessor.update_prices` line 48: above-water
accounts whose net value exceeds the worthwhile threshold. -/
def worthwhileOf (worthwhile_threshold : ℚ) (above_water : List MarginAccountMetadata) :
    List MarginAccountMetadata :=
  above_water.filter (fun mam => decide (worthwhile_threshold < mam.assets - mam.liabilities))

/-! ### LiquidationProcessor._liquidate_all — one loop iteration

The body of the `while` loop, as written in the source: sort a copy of
`to_process` by net value descending (Python `sorted` with `reverse=True`
is a stable sort under the reversed comparison), pick the head, attempt
liquidation-and-reload (modelled by an oracle `liq` returning `none` when
any step raises), append the reloaded account back **only when** its net
value is `≤` the threshold (the source condition drops it when
`assets - liabilities > worthwhile_threshold`), and finally remove the
head if it is still present. -/

/-- Sort key of `_liquidate_all` line 59: net value `assets - liabilities`. -/
def netValue (mam : MarginAccountMetadata) : ℚ :=
  mam.assets - mam.liabilities

/-- One iteration of the `while` loop of
`LiquidationProcessor._liquidate_all` (lines 58-80).  `liq` models
`account_liquidator.liquidate` followed by `wallet_balancer.balance`,
`MarginAccount.load` and metadata recomputation; `none` means one of those
raised an exception.  On an empty list the loop body does not run. -/
def liquidateStep (worthwhile_threshold : ℚ)
    (liq : MarginAccountMetadata → Option MarginAccountMetadata)
    (to_process : List MarginAccountMetadata) : List MarginAccountMetadata :=
  match to_process.mergeSort (fun a b => decide (netValue b ≤ netValue a)) with
  | [] => to_process
  | highest :: _ =>
    let afterTry : List MarginAccountMetadata :=
      match liq highest with
      | none => to_process
      | some updated_mam =>
        if worthwhile_threshold < updated_mam.assets - updated_mam.liabilities then
          to_process
        else
          to_process ++ [updated_mam]
    if highest ∈ afterTry then afterTry.erase highest else afterTry

/-! ### MarginAccount.get_intrinsic_balance_sheets (baseCli.py 1132-1151)

Python builds three `NUM_TOKENS`-length lists — `settled_assets` and
`liabilities` by direct per-token assignment, `unsettled_assets` by a
loop over the markets that adds each present open-orders account's base
total to the market's token slot and its quote total to the last slot —
and then zips them into per-token `BalanceSheet`s.  List indexing is
modelled with `getD` (all lists involved have length `NUM_TOKENS` for
accounts decoded from the fixed layouts). -/

/-- `MarginAccount.get_intrinsic_balance_sheets(group)`. -/
def MarginAccount.get_intrinsic_balance_sheets (ma : MarginAccount) (group : Group) :
    List BalanceSheet :=
  let settled_assets : List ℚ :=
    (List.range NUM_TOKENS).map (fun i =>
      (group.basket_tokens.getD i default).index.deposit * ma.deposits.getD i 0)
  let liabilities : List ℚ :=
    (List.range NUM_TOKENS).map (fun i =>
      (group.basket_tokens.getD i default).index.borrow * ma.borrows.getD i 0)
  let unsettled_assets : List ℚ :=
    (List.range NUM_MARKETS).foldl
      (fun u j =>
        match ma.open_orders_accounts.getD j none with
        | none => u
        | some oo =>
          let u1 := u.set j (u.getD j 0 + oo.base_token_total)
          u1.set (NUM_TOKENS - 1) (u1.getD (NUM_TOKENS - 1) 0 + oo.quote_token_total))
      (List.replicate NUM_TOKENS 0)
  (List.range NUM_TOKENS).map (fun i =>
    { token := (group.basket_tokens.getD i default).token
      liabilities := liabilities.getD i 0
      settled_assets := settled_assets.getD i 0
      unsettled_assets := unsettled_assets.getD i 0 })

/-! ### Layout.py — byte-level codec and the parse length gates

Bytes are natural numbers below 256 in a list; `construct` primitives
become sequential readers returning `none` when the stream is too short.
`construct` does not require the stream to be exhausted, so any trailing
bytes are simply left unread — the exact-length requirement comes from
the explicit checks in `Group.parse` and `MarginAccount.parse`. -/

/-- Little-endian interpretation of a byte list (`BytesInteger` with
`swapped=True`). -/
def decodeUIntLE (bs : List ℕ) : ℕ :=
  bs.foldr (fun b acc => b + 256 * acc) 0

/-- Take exactly `n` bytes from the stream. -/
def readBytes (n : ℕ) (data : List ℕ) : Option (List ℕ × List ℕ) :=
  if n ≤ data.length then some (data.take n, data.drop n) else none

/-- `DecimalAdapter(size)` / raw unsigned little-endian integer. -/
def readUInt (size : ℕ) (data : List ℕ) : Option (ℕ × List ℕ) :=
  (readBytes size data).map (fun p => (decodeUIntLE p.1, p.2))

/-- `FloatAdapter(size)`: the unsigned integer divided by
`2 ^ (bit_size / 2)`, the symmetric fixed-point split. -/
def readFixed (size : ℕ) (data : List ℕ) : Option (ℚ × List ℕ) :=
  (readUInt size data).map (fun p => ((p.1 : ℚ) / 2 ^ (size * 8 / 2), p.2))

/-- `MANGO_ACCOUNT_FLAGS`: eight bytes, bit-swapped flags, so the four
named booleans are the low bits of the first byte. -/
def readFlags (data : List ℕ) : Option (MangoAccountFlags × List ℕ) :=
  (readBytes 8 data).map (fun p =>
    let b0 := p.1.headD 0
    ({ initialized := b0.testBit 0
       group := b0.testBit 1
       margin_account := b0.testBit 2
       srm_account := b0.testBit 3 }, p.2))

/-- `construct.Array(n, rd)`: `n` sequential reads. -/
def readArray {α : Type} (rd : List ℕ → Option (α × List ℕ)) :
    ℕ → List ℕ → Option (List α × List ℕ)
  | 0, data => some ([], data)
  | n + 1, data =>
    match rd data with
    | none => none
    | some (a, d1) =>
      match readArray rd n d1 with
      | none => none
      | some (as, d2) => some (a :: as, d2)

/-- The `INDEX` layout: timestamp, then two 16-byte fixed-point values. -/
def readIndexLayout (data : List ℕ) : Option (Index × List ℕ) :=
  match readUInt 8 data with
  | none => none
  | some (last_update, d1) =>
    match readFixed 16 d1 with
    | none => none
    | some (borrow, d2) =>
      match readFixed 16 d2 with
      | none => none
      | some (deposit, d3) => some (⟨last_update, borrow, deposit⟩, d3)

/-- Decoded `GROUP` layout record. -/
structure GroupLayout where
  account_flags : MangoAccountFlags
  tokens : List ℕ
  vaults : List ℕ
  indexes : List Index
  spot_markets : List ℕ
  oracles : List ℕ
  signer_nonce : ℕ
  signer_key : ℕ
  dex_program_id : ℕ
  total_deposits : List ℚ
  total_borrows : List ℚ
  maint_coll_ratio : ℚ
  init_coll_ratio : ℚ
  srm_vault : ℕ
  admin : ℕ
  borrow_limits : List ℕ
  mint_decimals : List ℕ
  oracle_decimals : List ℕ
deriving DecidableEq, Repr

/-- `GROUP_PADDING` from Layout.py. -/
def GROUP_PADDING : ℕ := 8 - (NUM_TOKENS + NUM_MARKETS) % 8

/-- Byte size of the `GROUP` layout (`layouts.GROUP.sizeof()`), field by
field in layout order. -/
def GROUP.sizeof : ℕ :=
  8 + NUM_TOKENS * 32 + NUM_TOKENS * 32 + NUM_TOKENS * (8 + 16 + 16) +
    NUM_MARKETS * 32 + NUM_MARKETS * 32 + 8 + 32 + 32 + NUM_TOKENS * 16 +
    NUM_TOKENS * 16 + 16 + 16 + 32 + 32 + NUM_TOKENS * 8 + NUM_TOKENS * 1 +
    NUM_MARKETS * 1 + GROUP_PADDING

/-- `layouts.GROUP.parse`: sequential decode of the group layout, field
by field in layout order (written as explicit matches on each read). -/
def GROUP.parseBytes (data : List ℕ) : Option GroupLayout :=
  match readFlags data with
  | none => none
  | some (account_flags, d1) =>
  match readArray (readUInt 32) NUM_TOKENS d1 with
  | none => none
  | some (tokens, d2) =>
  match readArray (readUInt 32) NUM_TOKENS d2 with
  | none => none
  | some (vaults, d3) =>
  match readArray readIndexLayout NUM_TOKENS d3 with
  | none => none
  | some (indexes, d4) =>
  match readArray (readUInt 32) NUM_MARKETS d4 with
  | none => none
  | some (spot_markets, d5) =>
  match readArray (readUInt 32) NUM_MARKETS d5 with
  | none => none
  | some (oracles, d6) =>
  match readUInt 8 d6 with
  | none => none
  | some (signer_nonce, d7) =>
  match readUInt 32 d7 with
  | none => none
  | some (signer_key, d8) =>
  match readUInt 32 d8 with
  | none => none
  | some (dex_program_id, d9) =>
  match readArray (readFixed 16) NUM_TOKENS d9 with
  | none => none
  | some (total_deposits, d10) =>
  match readArray (readFixed 16) NUM_TOKENS d10 with
  | none => none
  | some (total_borrows, d11) =>
  match readFixed 16 d11 with
  | none => none
  | some (maint_coll_ratio, d12) =>
  match readFixed 16 d12 with
  | none => none
  | some (init_coll_ratio, d13) =>
  match readUInt 32 d13 with
  | none => none
  | some (srm_vault, d14) =>
  match readUInt 32 d14 with
  | none => none
  | some (admin, d15) =>
  match readArray (readUInt 8) NUM_TOKENS d15 with
  | none => none
  | some (borrow_limits, d16) =>
  match readArray (readUInt 1) NUM_TOKENS d16 with
  | none => none
  | some (mint_decimals, d17) =>
  match readArray (readUInt 1) NUM_MARKETS d17 with
  | none => none
  | some (oracle_decimals, d18) =>
  match readBytes GROUP_PADDING d18 with
  | none => none
  | some _ =>
    some { account_flags, tokens, vaults, indexes, spot_markets, oracles,
           signer_nonce, signer_key, dex_program_id, total_deposits,
           total_borrows, maint_coll_ratio, init_coll_ratio, srm_vault,
           admin, borrow_limits, mint_decimals, oracle_decimals }

/-- Decoded `MARGIN_ACCOUNT` layout record. -/
structure MarginAccountLayout where
  account_flags : MangoAccountFlags
  mango_group : ℕ
  owner : ℕ
  deposits : List ℚ
  borrows : List ℚ
  open_orders : List ℕ
deriving DecidableEq, Repr

/-- Byte size of the `MARGIN_ACCOUNT` layout
(`layouts.MARGIN_ACCOUNT.sizeof()`). -/
def MARGIN_ACCOUNT.sizeof : ℕ :=
  8 + 32 + 32 + NUM_TOKENS * 16 + NUM_TOKENS * 16 + NUM_MARKETS * 32 + 8

/-- `layouts.MARGIN_ACCOUNT.parse`: sequential decode of the
margin-account layout. -/
def MARGIN_ACCOUNT.parseBytes (data : List ℕ) : Option MarginAccountLayout :=
  match readFlags data with
  | none => none
  | some (account_flags, d1) =>
  match readUInt 32 d1 with
  | none => none
  | some (mango_group, d2) =>
  match readUInt 32 d2 with
  | none => none
  | some (owner, d3) =>
  match readArray (readFixed 16) NUM_TOKENS d3 with
  | none => none
  | some (deposits, d4) =>
  match readArray (readFixed 16) NUM_TOKENS d4 with
  | none => none
  | some (borrows, d5) =>
  match readArray (readUInt 32) NUM_MARKETS d5 with
  | none => none
  | some (open_orders, d6) =>
  match readBytes 8 d6 with
  | none => none
  | some _ =>
    some { account_flags, mango_group, owner, deposits, borrows, open_orders }

/-- `MarginAccount.from_layout`: copy the decoded fields; open-orders
accounts start out absent. -/
def MarginAccount.from_layout (layout : MarginAccountLayout) : MarginAccount :=
  { account_flags := layout.account_flags
    mango_group := layout.mango_group
    owner := layout.owner
    deposits := layout.deposits
    borrows := layout.borrows
    open_orders := layout.open_orders
    open_orders_accounts := List.replicate NUM_MARKETS none }

/-- `MarginAccount.parse` (baseCli.py 1015-1022): reject any data whose
length differs from the layout size, then decode. -/
def MarginAccount.parse (data : List ℕ) : Except String MarginAccount :=
  if data.length ≠ MARGIN_ACCOUNT.sizeof then
    .error "Data length does not match expected size"
  else
    match MARGIN_ACCOUNT.parseBytes data with
    | some layout => .ok (MarginAccount.from_layout layout)
    | none => .error "stream read error"

/-- `Token(name, mint, decimals)`: the constructor uppercases the name. -/
def Token.make (name : PyStr) (mint : ℕ) (decimals : ℚ) : Token :=
  ⟨pyToUpper name, mint, decimals⟩

/-- `BasketToken.find_by_name`: strict case-insensitive lookup. -/
def BasketToken.find_by_name (values : List BasketToken) (name : PyStr) :
    Except String BasketToken :=
  match values.filter (fun v => v.token.name_matches name) with
  | [found] => .ok found
  | [] => .error "Token not found in token values"
  | _ => .error "Token matched multiple tokens in values"

/-- Round a rational to an integer, ties to even (the default
`ROUND_HALF_EVEN` of Python `Decimal`). -/
def roundHalfEven (q : ℚ) : ℤ :=
  let n := ⌊q⌋
  let f := q - n
  if f < 1 / 2 then n
  else if 1 / 2 < f then n + 1
  else if Even n then n else n + 1

/-- `Decimal.quantize(Decimal(".01"))`: round to two decimal places,
ties to even. -/
def quantize2 (q : ℚ) : ℚ :=
  (roundHalfEven (q * 100) : ℚ) / 100

/-- `Index.from_layout(layout, decimals)`: scale borrow and deposit down
by `10 ^ decimals`. -/
def Index.from_layout (layout : Index) (decimals : ℕ) : Index :=
  { last_update := layout.last_update
    borrow := layout.borrow / 10 ^ decimals
    deposit := layout.deposit / 10 ^ decimals }

/-- `Group.from_layout` (baseCli.py 613-646).  The context lookups are
passed in as functions from mint/market address to optional name; a
missing token name raises, and a missing market name makes the
`split("/")` unpacking fail (`None` has no `split`), so both are errors. -/
def Group.from_layout (lookup_token_name lookup_market_name : ℕ → Option PyStr)
    (layout : GroupLayout) : Except String Group :=
  let indexes : List Index :=
    (List.range NUM_TOKENS).map (fun i =>
      Index.from_layout (layout.indexes.getD i default) (layout.mint_decimals.getD i 0))
  let basketResult : Except String (List BasketToken) :=
    (List.range NUM_TOKENS).mapM (fun i =>
      let token_address := layout.tokens.getD i 0
      match lookup_token_name token_address with
      | none => .error "Could not find token with mint in Group"
      | some token_name =>
        let token := Token.make token_name token_address ((layout.mint_decimals.getD i 0 : ℕ) : ℚ)
        .ok (⟨token, layout.vaults.getD i 0, indexes.getD i default⟩ : BasketToken))
  match basketResult with
  | .error e => .error e
  | .ok basket_tokens =>
    let marketsResult : Except String (List MarketMetadata) :=
      (List.range NUM_MARKETS).mapM (fun i =>
        let market_address := layout.spot_markets.getD i 0
        match lookup_market_name market_address with
        | none => .error "market name lookup failed"
        | some market_name =>
          match pySplitOn '/' market_name with
          | [base_name, quote_name] =>
            (match BasketToken.find_by_name basket_tokens base_name with
             | .error e => .error e
             | .ok base =>
               match BasketToken.find_by_name basket_tokens quote_name with
               | .error e => .error e
               | .ok quote =>
                 .ok (⟨market_name, market_address, base, quote,
                       layout.spot_markets.getD i 0, layout.oracles.getD i 0,
                       ((layout.oracle_decimals.getD i 0 : ℕ) : ℚ)⟩ : MarketMetadata))
          | _ => .error "market name unpack failed")
    match marketsResult with
    | .error e => .error e
    | .ok markets =>
      .ok { account_flags := layout.account_flags
            basket_tokens
            markets
            signer_nonce := layout.signer_nonce
            signer_key := layout.signer_key
            dex_program_id := layout.dex_program_id
            total_deposits := layout.total_deposits
            total_borrows := layout.total_borrows
            maint_coll_ratio := quantize2 layout.maint_coll_ratio
            init_coll_ratio := quantize2 layout.init_coll_ratio
            srm_vault := layout.srm_vault
            admin := layout.admin
            borrow_limits := layout.borrow_limits.map (fun b => (b : ℚ)) }

/-- `Group.parse` (baseCli.py 647-654): reject any data whose length
differs from the layout size, then decode and build the `Group`. -/
def Group.parse (lookup_token_name lookup_market_name : ℕ → Option PyStr)
    (data : List ℕ) : Except String Group :=
  if data.length ≠ GROUP.sizeof then
    .error "Data length does not match expected size"
  else
    match GROUP.parseBytes data with
    | some layout => Group.from_layout lookup_token_name lookup_market_name layout
    | none => .error "stream read error"

/-! ### WalletBalancer.py -/

/-- `TargetBalance` and its two concrete subclasses.  The percentage
variant stores the raw percentage; construction divides it by 100 and
`resolve` multiplies by the stored fraction, which composes to the
`pct / 100` below. -/
inductive TargetBalance where
  | FixedTargetBalance (token : Token) (value : ℚ)
  | PercentageTargetBalance (token : Token) (target_percentage : ℚ)
deriving DecidableEq, Repr

/-- The token of a target balance (base-class field). -/
def TargetBalance.token : TargetBalance → Token
  | .FixedTargetBalance t _ => t
  | .PercentageTargetBalance t _ => t

/-- `TargetBalance.resolve(current_price, total_value)`. -/
def TargetBalance.resolve : TargetBalance → ℚ → ℚ → TokenValue
  | .FixedTargetBalance t v, _, _ => ⟨t, v⟩
  | .PercentageTargetBalance t pct, current_price, total_value =>
    ⟨t, total_value * (pct / 100) / current_price⟩

/-- Decimal digits of a character list read as a natural number. -/
def digitsToNat (ds : List Char) : ℕ :=
  ds.foldl (fun acc c => 10 * acc + (c.toNat - 48)) 0

/-- Exponent suffix of a Python decimal numeric string: empty, or
`e`/`E` followed by an optional sign and at least one digit, consuming
the whole remainder. -/
def parseExpPart (cs : List Char) : Option ℤ :=
  match cs with
  | [] => some 0
  | c :: rest =>
    if c = 'e' ∨ c = 'E' then
      let (sgn, rest2) : ℤ × List Char :=
        match rest with
        | '+' :: r => (1, r)
        | '-' :: r => (-1, r)
        | r => (1, r)
      let (ds, rest3) := rest2.span Char.isDigit
      if ds = [] ∨ rest3 ≠ [] then none else some (sgn * (digitsToNat ds : ℤ))
    else none

/-- Python `decimal.Decimal(str)` on finite numeric strings: underscores
are removed, leading and trailing whitespace is stripped, then the string
must be an optional sign, digits with an optional fractional part (at
least one digit overall), and an optional exponent.  The special values
NaN and Infinity, which no claim exercises, are outside this model. -/
def pythonDecimalParse (s : PyStr) : Option ℚ :=
  let cs0 := s.filter (fun c => c ≠ '_')
  let cs := ((cs0.dropWhile Char.isWhitespace).reverse.dropWhile Char.isWhitespace).reverse
  let (sgn, cs1) : ℤ × List Char :=
    match cs with
    | '+' :: r => (1, r)
    | '-' :: r => (-1, r)
    | r => (1, r)
  let (ip, cs2) := cs1.span Char.isDigit
  let (fp, cs3) :=
    match cs2 with
    | '.' :: r => r.span Char.isDigit
    | r => (([] : List Char), r)
  if ip = [] ∧ fp = [] then none
  else
    match parseExpPart cs3 with
    | none => none
    | some e =>
      some ((sgn : ℚ) * ((digitsToNat ip : ℚ) + (digitsToNat fp : ℚ) / 10 ^ fp.length) * (10 : ℚ) ^ e)

/-- `TargetBalanceParser.parse`: split on a single colon, strict token
lookup, split the value part on percent signs, parse the first piece as a
decimal, reject more than two pieces, and build a fixed target for one
piece or a percentage target for two. -/
def TargetBalanceParser.parse (tokens : List Token) (to_parse : PyStr) :
    Except String TargetBalance :=
  match pySplitOn ':' to_parse with
  | [token_name, value] =>
    match Token.find_by_name tokens token_name with
    | .error e => .error e
    | .ok token =>
      let values := pySplitOn '%' value
      match pythonDecimalParse (values.headD []) with
      | none => .error "Could not parse as a decimal number"
      | some numeric_value =>
        if values.length > 2 then .error "Could not parse as a decimal percentage"
        else if values.length = 1 then .ok (.FixedTargetBalance token numeric_value)
        else .ok (.PercentageTargetBalance token numeric_value)
  | _ => .error "Could not parse target balance"

/-- `calculate_required_balance_changes`: for each desired balance, find
the current balance of the same token and record the signed difference. -/
def calculate_required_balance_changes
    (current_balances desired_balances : List TokenValue) :
    Except String (List TokenValue) :=
  desired_balances.mapM (fun desired =>
    (TokenValue.find_by_token current_balances desired.token).map
      (fun current => ⟨desired.token, desired.value - current.value⟩))

/-- Total portfolio value computed by `LiveWalletBalancer.balance`
(lines 140-144): sum of balance times looked-up price. -/
def totalPortfolioValue (current_balances prices : List TokenValue) : Except String ℚ :=
  current_balances.foldlM
    (fun total bal =>
      (TokenValue.find_by_token prices bal.token).map
        (fun price => total + bal.value * price.value))
    0

/-- Target resolution of `LiveWalletBalancer.balance` (lines 146-149). -/
def resolveTargets (target_balances : List TargetBalance) (prices : List TokenValue)
    (total_value : ℚ) : Except String (List TokenValue) :=
  target_balances.mapM (fun target =>
    (TokenValue.find_by_token prices target.token).map
      (fun price => target.resolve price.value total_value))

/-- Quote-denominated value of a list of balance changes: the sum over
the changes of `delta * price`, with each price found by token.  This is
the quantity the rebalancer-delta property speaks about. -/
def changesQuoteValue (prices changes : List TokenValue) : Except String ℚ :=
  changes.foldlM
    (fun acc change =>
      (TokenValue.find_by_token prices change.token).map
        (fun price => acc + change.value * price.value))
    0

/-- The quote value of the deltas computed by the rebalancing pipeline of
`LiveWalletBalancer.balance`: total portfolio value, target resolution,
then `calculate_required_balance_changes`. -/
def rebalanceChangesValue (current_balances prices : List TokenValue)
    (target_balances : List TargetBalance) : Except String ℚ :=
  match totalPortfolioValue current_balances prices with
  | .error e => .error e
  | .ok total =>
    match resolveTargets target_balances prices total with
    | .error e => .error e
    | .ok resolved =>
      match calculate_required_balance_changes current_balances resolved with
      | .error e => .error e
      | .ok deltas => changesQuoteValue prices deltas

/-! ### Retrier.py

`Retrier.run` loops `counter` over `range(retries)`, returning the first
call of `func` that does not raise, remembering the last exception
otherwise, and re-raising the remembered exception after the loop.  The
function under retry is modelled by `f : ℕ → Except E A` giving the
outcome of each successive call; the result pairs the number of calls
made with the final outcome (`Except.error` carries the remembered
exception, `none` standing for the initial Python `None`). -/

/-- The retry loop of `Retrier.run` with `fuel` iterations remaining. -/
def retrierGo {E A : Type} (f : ℕ → Except E A) (captured : Option E) (counter : ℕ) :
    ℕ → ℕ × Except (Option E) A
  | 0 => (counter, .error captured)
  | fuel + 1 =>
    match f counter with
    | .ok a => (counter + 1, .ok a)
    | .error e => retrierGo f (some e) (counter + 1) fuel

/-- `Retrier(func, retries).run()`: number of calls made and outcome. -/
def Retrier.run {E A : Type} (f : ℕ → Except E A) (retries : ℕ) :
    ℕ × Except (Option E) A :=
  retrierGo f none 0 retries

/-! ### Concrete fixtures for evaluation theorems -/

/-- All-clear account flags. -/
def flags0 : MangoAccountFlags := ⟨false, false, false, false⟩

/-- A margin account with no deposits, borrows or open orders. -/
def ma0 : MarginAccount := ⟨flags0, 0, 0, [], [], [], []⟩

/-- Metadata whose balance sheet has settled assets `q`, no unsettled
assets and no liabilities, so its net value is exactly `q`. -/
def mkMam (q : ℚ) : MarginAccountMetadata := ⟨ma0, ⟨default, 0, q, 0⟩, []⟩

/-- A group with maintenance collateral ratio 1.10 (the documented
value) and no basket tokens. -/
def g0 : Group := ⟨flags0, [], [], 0, 0, 0, [], [], 11/10, 12/10, 0, 0, []⟩

/-- A liquidation-and-reload oracle that strictly reduces net value by 1
on every call — it satisfies the specification's own premise that
liquidation is net-reducing. -/
def liqDec (m : MarginAccountMetadata) : Option MarginAccountMetadata :=
  some (mkMam (netValue m - 1))

/-- Base-token contribution of an optional open-orders account (an
absent account contributes zero). -/
def ooBaseTotal : Option OpenOrders → ℚ
  | none => 0
  | some oo => oo.base_token_total

/-- Quote-token contribution of an optional open-orders account (an
absent account contributes zero). -/
def ooQuoteTotal : Option OpenOrders → ℚ
  | none => 0
  | some oo => oo.quote_token_total

/-! ### Rebalancer value preservation

A portfolio row bundles, for one token, the quantities the rebalancing
pipeline consumes: the mint, the current balance, the oracle price and
the percentage target.  Aligned rows with pairwise-distinct mints give
the well-formed configurations of `LiveWalletBalancer.balance` in which
every lookup resolves uniquely. -/

structure PortfolioRow where
  mint : ℕ
  balance : ℚ
  price : ℚ
  pct : ℚ
deriving DecidableEq, Repr

/-- The token of a portfolio row (the name is irrelevant: all lookups in
the rebalancing pipeline go by mint). -/
def rowToken (r : PortfolioRow) : Token := ⟨[], r.mint, 0⟩

/-- The wallet balances of a row list. -/
def rowBalances (rows : List PortfolioRow) : List TokenValue :=
  rows.map (fun r => ⟨rowToken r, r.balance⟩)

/-- The price vector of a row list. -/
def rowPrices (rows : List PortfolioRow) : List TokenValue :=
  rows.map (fun r => ⟨rowToken r, r.price⟩)

/-- Percentage targets of a row list. -/
def rowTargets (rows : List PortfolioRow) : List TargetBalance :=
  rows.map (fun r => TargetBalance.PercentageTargetBalance (rowToken r) r.pct)

/-- The portfolio of end-to-end scenario 5 of the specification (mints
stand for ETH, BTC, USDT) with percentage targets 20/30/50. -/
def scenarioRows : List PortfolioRow :=
  [⟨1, 1/2, 4000, 20⟩, ⟨2, 1/20, 60000, 30⟩, ⟨3, 5000, 1, 50⟩]

theorem netValue_mkMam (q : ℚ) : netValue (mkMam q) = q := by
  simp [netValue, mkMam, MarginAccountMetadata.assets, MarginAccountMetadata.liabilities,
    BalanceSheet.assets]

theorem assets_sub_liabilities_mkMam (q : ℚ) :
    (mkMam q).assets - (mkMam q).liabilities = q := by
  simp [mkMam, MarginAccountMetadata.assets, MarginAccountMetadata.liabilities,
    BalanceSheet.assets]

/-- `_liquidate_all` on a one-element work list: sort and head selection
are trivial, so the iteration reduces to the try/finally body. -/
theorem liquidateStep_singleton (thr : ℚ)
    (liq : MarginAccountMetadata → Option MarginAccountMetadata)
    (m : MarginAccountMetadata) :
    liquidateStep thr liq [m] =
      match liq m with
      | none => []
      | some u => if thr < u.assets - u.liabilities then [] else [u] := by
  unfold liquidateStep
  rw [List.mergeSort_singleton]
  cases h : liq m with
  | none => simp [h]
  | some u =>
    by_cases hc : thr < u.assets - u.liabilities
    · simp [h, hc]
    · simp [h, hc]

/-- C1.  In `LiquidationProcessor._liquidate_all` (lines 69-73) the
residual-value branch is inverted relative to its own log messages: when
the reloaded account's net value exceeds `worthwhile_threshold` the
account is dropped (while logging that it is "no longer worthwhile"),
and when its net value is at most the threshold it is appended back
(while logging that it is "still worthwhile").  At the default threshold
0.01, a reloaded account with residual net value 50 is dropped and a
reloaded account with residual net value 0.005 is re-appended — the
opposite of the claim. -/
theorem liquidateStep_residual_branch_inverted :
    liquidateStep (1/100) (fun _ => some (mkMam 50)) [mkMam 100] = [] ∧
    liquidateStep (1/100) (fun _ => some (mkMam (1/200))) [mkMam 100] = [mkMam (1/200)] := by
  constructor
  · rw [liquidateStep_singleton]
    norm_num [assets_sub_liabilities_mkMam]
  · rw [liquidateStep_singleton]
    norm_num [assets_sub_liabilities_mkMam]

theorem liquidateStep_liqDec (q : ℚ) (h : ¬ (1/100 < q - 1)) :
    liquidateStep (1/100) liqDec [mkMam q] = [mkMam (q - 1)] := by
  rw [liquidateStep_singleton]
  simp only [liqDec, netValue_mkMam, assets_sub_liabilities_mkMam]
  rw [if_neg h]

theorem iterate_liqDec (n : ℕ) :
    (liquidateStep (1/100) liqDec)^[n] [mkMam 1] = [mkMam (1 - (n : ℚ))] := by
  induction n with
  | zero => norm_num
  | succ k ih =>
    rw [Function.iterate_succ_apply', ih,
      liquidateStep_liqDec _ (by linarith [Nat.cast_nonneg (α := ℚ) k])]
    congr 1
    push_cast
    ring_nf

/-- C2.  The `_liquidate_all` loop need not terminate.  With the
inverted residual branch (see the C1 theorem), an account whose reloaded
net value stays at or below the threshold is re-appended on every
iteration: starting from the single worthwhile account of net value 1
(above the 0.01 threshold), under a liquidation oracle that strictly
reduces net value by 1 on each call — precisely the "net-reducing"
premise of the specification's termination argument — the work list is
non-empty after every finite number of iterations, so the loop never
exits. -/
theorem liquidateAll_loop_nonterminating :
    (1/100 < netValue (mkMam 1)) ∧
    (∀ m, liqDec m = some (mkMam (netValue m - 1)) ∧
      netValue (mkMam (netValue m - 1)) < netValue m) ∧
    ∀ n : ℕ, (liquidateStep (1/100) liqDec)^[n] [mkMam 1] ≠ [] := by
  refine ⟨by rw [netValue_mkMam]; norm_num, fun m => ⟨rfl, ?_⟩, fun n => ?_⟩
  · rw [netValue_mkMam]; linarith
  · rw [iterate_liqDec]; simp

/-- C4.  The three successive filters of
`LiquidationProcessor.update_prices` form a nested funnel
`worthwhile ⊆ above_water ⊆ liquidatable ⊆ input`, and each stage is
exactly characterised: liquidatable are the inputs with
`collateral_ratio ≤ maint_coll_ratio`, above-water the liquidatable with
`collateral_ratio > 1`, worthwhile the above-water with
`assets - liabilities > worthwhile_threshold`. -/
theorem updatePrices_funnel (group : Group) (thr : ℚ)
    (updated : List MarginAccountMetadata) :
    worthwhileOf thr (aboveWaterOf (liquidatableOf group updated)) ⊆
      aboveWaterOf (liquidatableOf group updated) ∧
    aboveWaterOf (liquidatableOf group updated) ⊆ liquidatableOf group updated ∧
    liquidatableOf group updated ⊆ updated ∧
    (∀ mam, mam ∈ liquidatableOf group updated ↔
      mam ∈ updated ∧ mam.balance_sheet.collateral_ratio ≤ group.maint_coll_ratio) ∧
    (∀ mam, mam ∈ aboveWaterOf (liquidatableOf group updated) ↔
      mam ∈ liquidatableOf group updated ∧ 1 < mam.collateral_ratio) ∧
    (∀ mam, mam ∈ worthwhileOf thr (aboveWaterOf (liquidatableOf group updated)) ↔
      mam ∈ aboveWaterOf (liquidatableOf group updated) ∧
        thr < mam.assets - mam.liabilities) := by
  refine ⟨(List.filter_sublist _).subset, (List.filter_sublist _).subset,
    (List.filter_sublist _).subset, ?_, ?_, ?_⟩ <;>
    intro mam <;>
    simp [liquidatableOf, aboveWaterOf, worthwhileOf, List.mem_filter] <;>
    tauto

/-- C10.  An account whose priced total liabilities are zero has
collateral ratio 0, hence (whenever the maintenance ratio is
non-negative, as the parenthetical `0 ≤ maint_coll_ratio` of the claim
assumes) it always passes the liquidatable filter and never passes the
above-water filter. -/
theorem zero_liability_liquidatable_never_above_water
    (group : Group) (updated : List MarginAccountMetadata)
    (mam : MarginAccountMetadata) (hmem : mam ∈ updated)
    (hliab : mam.balance_sheet.liabilities = 0)
    (hmaint : 0 ≤ group.maint_coll_ratio) :
    mam.balance_sheet.collateral_ratio = 0 ∧
    mam ∈ liquidatableOf group updated ∧
    mam ∉ aboveWaterOf (liquidatableOf group updated) := by
  have hcr : mam.balance_sheet.collateral_ratio = 0 := by
    rw [BalanceSheet.collateral_ratio, if_pos hliab]
  refine ⟨hcr, ?_, ?_⟩
  · rw [liquidatableOf, List.mem_filter]
    exact ⟨hmem, by rw [hcr]; exact decide_eq_true hmaint⟩
  · rw [aboveWaterOf, List.mem_filter]
    rintro ⟨-, habs⟩
    rw [MarginAccountMetadata.collateral_ratio, hcr] at habs
    exact absurd (of_decide_eq_true habs) (by norm_num)

/-- C10 witness: a concrete zero-liability account against the
documented maintenance ratio 1.10. -/
theorem zero_liability_witness :
    (mkMam 5).balance_sheet.collateral_ratio = 0 ∧
    mkMam 5 ∈ liquidatableOf g0 [mkMam 5] ∧
    mkMam 5 ∉ aboveWaterOf (liquidatableOf g0 [mkMam 5]) :=
  zero_liability_liquidatable_never_above_water g0 [mkMam 5] (mkMam 5)
    (List.mem_singleton.mpr rfl) rfl (by norm_num [g0])

/-- C6.  Derived balance-sheet fields: assets are settled plus unsettled
assets, value is assets minus liabilities, and the collateral ratio is
assets over liabilities for positive liabilities and 0 for zero
liabilities. -/
theorem balanceSheet_derived_fields (b : BalanceSheet) :
    b.assets = b.settled_assets + b.unsettled_assets ∧
    b.value = b.assets - b.liabilities ∧
    (0 < b.liabilities → b.collateral_ratio = b.assets / b.liabilities) ∧
    (b.liabilities = 0 → b.collateral_ratio = 0) := by
  refine ⟨rfl, rfl, fun h => ?_, fun h => ?_⟩
  · rw [BalanceSheet.collateral_ratio, if_neg (by linarith)]
  · rw [BalanceSheet.collateral_ratio, if_pos h]

/-- C6 witness: the collateral-ratio cases evaluated on concrete
sheets. -/
theorem balanceSheet_derived_fields_witness :
    ((0:ℚ) < 2 ∧
      (BalanceSheet.mk default 2 3 4).collateral_ratio =
        (BalanceSheet.mk default 2 3 4).assets / 2) ∧
    (BalanceSheet.mk default 0 3 4).collateral_ratio = 0 :=
  ⟨⟨by norm_num, (balanceSheet_derived_fields _).2.2.1 (by norm_num)⟩,
    (balanceSheet_derived_fields _).2.2.2 rfl⟩

/-! ### Retrier.run — call-count bounds, first success, exhaustion -/

theorem retrierGo_calls_le {E A : Type} (f : ℕ → Except E A) :
    ∀ (fuel counter : ℕ) (captured : Option E),
      (retrierGo f captured counter fuel).1 ≤ counter + fuel := by
  intro fuel
  induction fuel with
  | zero => intro counter captured; simp [retrierGo]
  | succ m ih =>
    intro counter captured
    rw [retrierGo]
    cases f counter with
    | ok a => simp
    | error e => simpa using le_trans (ih (counter + 1) (some e)) (by omega)

theorem retrierGo_calls_gt {E A : Type} (f : ℕ → Except E A) :
    ∀ (fuel counter : ℕ) (captured : Option E), 1 ≤ fuel →
      counter < (retrierGo f captured counter fuel).1 := by
  intro fuel
  induction fuel with
  | zero => omega
  | succ m ih =>
    intro counter captured _
    rw [retrierGo]
    cases f counter with
    | ok a => simp
    | error e =>
      rcases Nat.eq_zero_or_pos m with hm | hm
      · subst hm; simp [retrierGo]
      · exact lt_trans (by omega) (ih (counter + 1) (some e) hm)

theorem retrierGo_first_success {E A : Type} (f : ℕ → Except E A) :
    ∀ (fuel counter : ℕ) (captured : Option E) (k : ℕ) (a : A),
      counter ≤ k → k < counter + fuel →
      (∀ j, counter ≤ j → j < k → ∃ e, f j = .error e) →
      f k = .ok a →
      retrierGo f captured counter fuel = (k + 1, .ok a) := by
  intro fuel
  induction fuel with
  | zero => intro counter captured k a hck hlt _ _; omega
  | succ m ih =>
    intro counter captured k a hck hlt herr hok
    rw [retrierGo]
    rcases eq_or_lt_of_le hck with rfl | hck'
    · rw [hok]
    · rcases herr counter le_rfl hck' with ⟨e, he⟩
      rw [he]
      exact ih (counter + 1) (some e) k a hck' (by omega)
        (fun j hj hjk => herr j (by omega) hjk) hok

theorem retrierGo_all_fail {E A : Type} (f : ℕ → Except E A) :
    ∀ (fuel counter : ℕ) (captured : Option E), 1 ≤ fuel →
      (∀ j, counter ≤ j → j < counter + fuel → ∃ e, f j = .error e) →
      ∃ e, f (counter + fuel - 1) = .error e ∧
        retrierGo f captured counter fuel = (counter + fuel, .error (some e)) := by
  intro fuel
  induction fuel with
  | zero => omega
  | succ m ih =>
    intro counter captured _ herr
    rcases herr counter le_rfl (by omega) with ⟨e, he⟩
    rcases Nat.eq_zero_or_pos m with hm | hm
    · subst hm
      refine ⟨e, by simpa using he, ?_⟩
      rw [retrierGo, he]
      rfl
    · rcases ih (counter + 1) (some e) hm
        (fun j hj hjlt => herr j (by omega) (by omega)) with ⟨e2, he2, hgo⟩
      refine ⟨e2, by convert he2 using 2; omega, ?_⟩
      rw [retrierGo, he]
      show retrierGo f (some e) (counter + 1) m = _
      rw [hgo, Prod.mk.injEq]
      exact ⟨by omega, rfl⟩

/-- C8.  For every `n ≥ 1`, `Retrier(f, n).run` makes between 1 and `n`
calls to `f`; if some call among the first `n` is the first one that
does not raise, its value is returned (after exactly that many calls);
and if all `n` calls raise, the exception of the last call (call `n-1`)
is re-raised after `n` calls. -/
theorem retrier_run_spec {E A : Type} (f : ℕ → Except E A) (n : ℕ) (hn : 1 ≤ n) :
    (1 ≤ (Retrier.run f n).1 ∧ (Retrier.run f n).1 ≤ n) ∧
    (∀ k a, k < n → (∀ j, j < k → ∃ e, f j = .error e) → f k = .ok a →
      Retrier.run f n = (k + 1, .ok a)) ∧
    ((∀ j, j < n → ∃ e, f j = .error e) →
      ∃ e, f (n - 1) = .error e ∧ Retrier.run f n = (n, .error (some e))) := by
  refine ⟨⟨retrierGo_calls_gt f n 0 none hn, by simpa using retrierGo_calls_le f n 0 none⟩,
    fun k a hk herr hok => ?_, fun herr => ?_⟩
  · exact retrierGo_first_success f n 0 none k a (Nat.zero_le k) (by omega)
      (fun j _ hjk => herr j hjk) hok
  · simpa using retrierGo_all_fail f n 0 none hn (fun j _ hj => herr j (by simpa using hj))

/-- C8 witness: with two attempts allowed, a function that raises on its
first call and succeeds on its second is called twice and its second
value is returned. -/
theorem retrier_run_spec_witness :
    Retrier.run (fun k => if k = 0 then (.error "boom" : Except String ℕ) else .ok 42) 2 =
      (2, .ok 42) :=
  (retrier_run_spec (fun k => if k = 0 then (.error "boom" : Except String ℕ) else .ok 42)
      2 (by norm_num)).2.1 1 42 (by norm_num)
    (fun j hj => ⟨"boom", by have hj0 : j = 0 := by omega
                             subst hj0
                             rfl⟩)
    (by norm_num)

/-! ### Parse length gates -/

/-- C9.  `Group.parse` and `MarginAccount.parse` reject (raise, producing
no record) every input whose byte length differs from the declared layout
size, and can return a record only on input of exactly the declared
length. -/
theorem parse_length_gate :
    (∀ (ltn lmn : ℕ → Option PyStr) (data : List ℕ), data.length ≠ GROUP.sizeof →
      ∃ e, Group.parse ltn lmn data = .error e) ∧
    (∀ (ltn lmn : ℕ → Option PyStr) (data : List ℕ) (g : Group),
      Group.parse ltn lmn data = .ok g → data.length = GROUP.sizeof) ∧
    (∀ data : List ℕ, data.length ≠ MARGIN_ACCOUNT.sizeof →
      ∃ e, MarginAccount.parse data = .error e) ∧
    (∀ (data : List ℕ) (ma : MarginAccount),
      MarginAccount.parse data = .ok ma → data.length = MARGIN_ACCOUNT.sizeof) := by
  refine ⟨fun ltn lmn data h => ⟨"Data length does not match expected size", ?_⟩,
    fun ltn lmn data g hok => ?_,
    fun data h => ⟨"Data length does not match expected size", ?_⟩,
    fun data ma hok => ?_⟩
  · simp [Group.parse, h]
  · by_contra h
    simp [Group.parse, h] at hok
  · simp [MarginAccount.parse, h]
  · by_contra h
    simp [MarginAccount.parse, h] at hok

/-- C9 witness: the empty input is rejected by both parsers (its length
is neither 744 nor 240). -/
theorem parse_length_gate_witness :
    (∃ e, Group.parse (fun _ => none) (fun _ => none) [] = .error e) ∧
    (∃ e, MarginAccount.parse [] = .error e) :=
  ⟨parse_length_gate.1 (fun _ => none) (fun _ => none) [] (by decide),
   parse_length_gate.2.2.1 [] (by decide)⟩

/-! ### Intrinsic balance sheets -/

/-- C7.  `MarginAccount.get_intrinsic_balance_sheets` produces, for each
token `i`, the sheet with `settled_assets = index.deposit * deposits[i]`
and `liabilities = index.borrow * borrows[i]`; the unsettled assets of
token `j < M` are the base-token total of market `j`'s open-orders
account (zero when absent), and the unsettled assets of the quote token
(index `N-1 = 2`) are the sum of the quote-token totals across both
markets. -/
theorem intrinsic_balance_sheets_spec (group : Group) (ma : MarginAccount) :
    ma.get_intrinsic_balance_sheets group =
      [⟨(group.basket_tokens.getD 0 default).token,
        (group.basket_tokens.getD 0 default).index.borrow * ma.borrows.getD 0 0,
        (group.basket_tokens.getD 0 default).index.deposit * ma.deposits.getD 0 0,
        ooBaseTotal (ma.open_orders_accounts.getD 0 none)⟩,
       ⟨(group.basket_tokens.getD 1 default).token,
        (group.basket_tokens.getD 1 default).index.borrow * ma.borrows.getD 1 0,
        (group.basket_tokens.getD 1 default).index.deposit * ma.deposits.getD 1 0,
        ooBaseTotal (ma.open_orders_accounts.getD 1 none)⟩,
       ⟨(group.basket_tokens.getD 2 default).token,
        (group.basket_tokens.getD 2 default).index.borrow * ma.borrows.getD 2 0,
        (group.basket_tokens.getD 2 default).index.deposit * ma.deposits.getD 2 0,
        ooQuoteTotal (ma.open_orders_accounts.getD 0 none) +
          ooQuoteTotal (ma.open_orders_accounts.getD 1 none)⟩] := by
  unfold MarginAccount.get_intrinsic_balance_sheets
  rw [show List.range NUM_TOKENS = [0, 1, 2] by decide,
    show List.range NUM_MARKETS = [0, 1] by decide,
    show NUM_TOKENS - 1 = 2 by decide,
    show List.replicate NUM_TOKENS (0 : ℚ) = [0, 0, 0] from rfl]
  cases h0 : ma.open_orders_accounts.getD 0 none with
  | none =>
    cases h1 : ma.open_orders_accounts.getD 1 none with
    | none => (simp only [List.getD, List.get?_eq_getElem?] at h0 h1; simp [h0, h1, ooBaseTotal, ooQuoteTotal, List.getD, List.set])
    | some oo1 => (simp only [List.getD, List.get?_eq_getElem?] at h0 h1; simp [h0, h1, ooBaseTotal, ooQuoteTotal, List.getD, List.set])
  | some oo0 =>
    cases h1 : ma.open_orders_accounts.getD 1 none with
    | none => (simp only [List.getD, List.get?_eq_getElem?] at h0 h1; simp [h0, h1, ooBaseTotal, ooQuoteTotal, List.getD, List.set])
    | some oo1 => (simp only [List.getD, List.get?_eq_getElem?] at h0 h1; simp [h0, h1, ooBaseTotal, ooQuoteTotal, List.getD, List.set])

/-! ### Target-balance parser grammar -/

theorem parse_fixed_case (tokens : List Token) (s tn v ns : PyStr) (t : Token) (q : ℚ)
    (h1 : pySplitOn ':' s = [tn, v]) (h2 : Token.find_by_name tokens tn = .ok t)
    (h3 : pySplitOn '%' v = [ns]) (h4 : pythonDecimalParse ns = some q) :
    TargetBalanceParser.parse tokens s = .ok (.FixedTargetBalance t q) := by
  unfold TargetBalanceParser.parse
  simp [h1, h2, h3, h4]

theorem parse_percentage_case (tokens : List Token) (s tn v ns r : PyStr) (t : Token) (q : ℚ)
    (h1 : pySplitOn ':' s = [tn, v]) (h2 : Token.find_by_name tokens tn = .ok t)
    (h3 : pySplitOn '%' v = [ns, r]) (h4 : pythonDecimalParse ns = some q) :
    TargetBalanceParser.parse tokens s = .ok (.PercentageTargetBalance t q) := by
  unfold TargetBalanceParser.parse
  simp [h1, h2, h3, h4]

theorem parse_multi_percent_rejected (tokens : List Token)
    (s tn v ns r1 r2 : PyStr) (rest : List PyStr)
    (h1 : pySplitOn ':' s = [tn, v])
    (h3 : pySplitOn '%' v = ns :: r1 :: r2 :: rest) :
    ∃ e, TargetBalanceParser.parse tokens s = .error e := by
  unfold TargetBalanceParser.parse
  cases hf : Token.find_by_name tokens tn with
  | error e => exact ⟨e, by simp [h1, hf]⟩
  | ok t =>
    cases hd : pythonDecimalParse ns with
    | none => exact ⟨"Could not parse as a decimal number", by simp [h1, hf, h3, hd]⟩
    | some q =>
      refine ⟨"Could not parse as a decimal percentage", ?_⟩
      have hlen : (ns :: r1 :: r2 :: rest).length > 2 := by simp
      simp [h1, hf, h3, hd, hlen]

/-- Evaluation of the Python decimal parse on `" 20"`: the leading
space is stripped and the string parses as 20. -/
theorem pythonDecimalParse_sp20 : pythonDecimalParse " 20".toList = some 20 := by
  have h : pythonDecimalParse " 20".toList =
      some (((1 : ℤ) : ℚ) *
        ((digitsToNat ['2', '0'] : ℚ) +
          (digitsToNat ([] : List Char) : ℚ) / 10 ^ ([] : List Char).length) *
        (10 : ℚ) ^ (0 : ℤ)) := rfl
  rw [h, show digitsToNat ['2', '0'] = 20 from by decide,
    show digitsToNat ([] : List Char) = 0 from rfl]
  norm_num

/-- C5 counterexample: the claim says any input containing whitespace is
rejected, but `"ETH: 20"` (a space inside the numeric part) is accepted
as `Fixed(ETH, 20)` because Python `Decimal` strips surrounding
whitespace. -/
theorem targetParser_accepts_whitespace :
    (' ' ∈ "ETH: 20".toList) ∧
    TargetBalanceParser.parse [⟨"ETH".toList, 1, 6⟩] "ETH: 20".toList =
      .ok (.FixedTargetBalance ⟨"ETH".toList, 1, 6⟩ 20) := by
  refine ⟨by decide, parse_fixed_case _ _ "ETH".toList " 20".toList " 20".toList _ _
    (by decide) ?_ (by decide) pythonDecimalParse_sp20⟩
  show Token.find_by_name [⟨"ETH".toList, 1, 6⟩] "ETH".toList = _
  unfold Token.find_by_name
  norm_num [Token.name_matches, pyToUpper]

/-- C5 (amended).  The parser maps `TOKEN:NUMBER` to a fixed target and
`TOKEN:NUMBER%…` to a percentage target, and rejects a value part with
more than one percent sign; leading/trailing whitespace around the
numeric part is not rejected (Python `Decimal` strips it — see the
counterexample), while whitespace in the token part can only be rejected
indirectly by the token lookup. -/
theorem targetParser_grammar :
    (∀ (tokens : List Token) (s tn v ns : PyStr) (t : Token) (q : ℚ),
      pySplitOn ':' s = [tn, v] → Token.find_by_name tokens tn = .ok t →
      pySplitOn '%' v = [ns] → pythonDecimalParse ns = some q →
      TargetBalanceParser.parse tokens s = .ok (.FixedTargetBalance t q)) ∧
    (∀ (tokens : List Token) (s tn v ns r : PyStr) (t : Token) (q : ℚ),
      pySplitOn ':' s = [tn, v] → Token.find_by_name tokens tn = .ok t →
      pySplitOn '%' v = [ns, r] → pythonDecimalParse ns = some q →
      TargetBalanceParser.parse tokens s = .ok (.PercentageTargetBalance t q)) ∧
    (∀ (tokens : List Token) (s tn v ns r1 r2 : PyStr) (rest : List PyStr),
      pySplitOn ':' s = [tn, v] → pySplitOn '%' v = ns :: r1 :: r2 :: rest →
      ∃ e, TargetBalanceParser.parse tokens s = .error e) :=
  ⟨parse_fixed_case, parse_percentage_case, parse_multi_percent_rejected⟩

/-- C5 witness: `"ETH:20"` parses as a fixed target, `"ETH:20%"` as a
percentage target, and `"ETH:1%2%"` is rejected. -/
theorem targetParser_grammar_witness :
    TargetBalanceParser.parse [⟨"ETH".toList, 1, 6⟩] "ETH:20".toList =
      .ok (.FixedTargetBalance ⟨"ETH".toList, 1, 6⟩ 20) ∧
    TargetBalanceParser.parse [⟨"ETH".toList, 1, 6⟩] "ETH:20%".toList =
      .ok (.PercentageTargetBalance ⟨"ETH".toList, 1, 6⟩ 20) ∧
    ∃ e, TargetBalanceParser.parse [⟨"ETH".toList, 1, 6⟩] "ETH:1%2%".toList = .error e := by
  have hfind : Token.find_by_name [⟨"ETH".toList, 1, 6⟩] "ETH".toList =
      .ok ⟨"ETH".toList, 1, 6⟩ := by
    unfold Token.find_by_name
    norm_num [Token.name_matches, pyToUpper]
  have h20 : pythonDecimalParse "20".toList = some 20 := by
    have h : pythonDecimalParse "20".toList =
        some (((1 : ℤ) : ℚ) *
          ((digitsToNat ['2', '0'] : ℚ) +
            (digitsToNat ([] : List Char) : ℚ) / 10 ^ ([] : List Char).length) *
          (10 : ℚ) ^ (0 : ℤ)) := rfl
    rw [h, show digitsToNat ['2', '0'] = 20 from by decide,
      show digitsToNat ([] : List Char) = 0 from rfl]
    norm_num
  refine ⟨targetParser_grammar.1 _ _ "ETH".toList "20".toList "20".toList _ _
      (by decide) hfind (by decide) h20,
    targetParser_grammar.2.1 _ _ "ETH".toList "20%".toList "20".toList [] _ _
      (by decide) hfind (by decide) h20,
    targetParser_grammar.2.2 _ _ "ETH".toList "1%2%".toList "1".toList "2".toList [] []
      (by decide) (by decide)⟩

theorem except_map_ok {ε α β : Type} (f : α → β) (a : α) :
    (Except.ok a : Except ε α).map f = .ok (f a) := rfl

theorem except_pure {ε α : Type} (a : α) :
    (pure a : Except ε α) = .ok a := rfl

theorem except_bind_ok {ε α β : Type} (a : α) (f : α → Except ε β) :
    ((Except.ok a : Except ε α) >>= f) = f a := rfl

theorem filter_mint_nil (g : PortfolioRow → TokenValue)
    (hg : ∀ r, (g r).token.mint = r.mint) :
    ∀ (rows : List PortfolioRow) (m : ℕ), m ∉ rows.map PortfolioRow.mint →
      (rows.map g).filter (fun v => v.token.mint == m) = [] := by
  intro rows
  induction rows with
  | nil => intro m _; rfl
  | cons r rest ih =>
    intro m hm
    rw [List.map_cons, List.mem_cons, not_or] at hm
    rw [List.map_cons, List.filter_cons]
    have hc : ((g r).token.mint == m) = false := by
      rw [hg r]
      exact beq_eq_false_iff_ne.mpr (fun h => hm.1 h.symm)
    rw [hc]
    simpa using ih m hm.2

theorem filter_mint_single (g : PortfolioRow → TokenValue)
    (hg : ∀ r, (g r).token.mint = r.mint) :
    ∀ rows : List PortfolioRow, (rows.map PortfolioRow.mint).Nodup →
      ∀ r ∈ rows, (rows.map g).filter (fun v => v.token.mint == r.mint) = [g r] := by
  intro rows
  induction rows with
  | nil => intro _ r hr; cases hr
  | cons r0 rest ih =>
    intro hnd r hr
    rw [List.map_cons, List.nodup_cons] at hnd
    rw [List.map_cons, List.filter_cons]
    rcases List.mem_cons.mp hr with rfl | hmem
    · rw [show ((g r).token.mint == r.mint) = true by rw [hg r]; exact beq_self_eq_true _]
      rw [filter_mint_nil g hg rest r.mint hnd.1]
      simp
    · have hne : (g r0).token.mint ≠ r.mint := by
        rw [hg r0]
        exact fun h => hnd.1 (h ▸ List.mem_map_of_mem PortfolioRow.mint hmem)
      rw [show ((g r0).token.mint == r.mint) = false from beq_eq_false_iff_ne.mpr hne]
      simpa using ih hnd.2 r hmem

theorem find_by_mint_rows (g : PortfolioRow → TokenValue)
    (hg : ∀ r, (g r).token.mint = r.mint)
    (rows : List PortfolioRow) (hnd : (rows.map PortfolioRow.mint).Nodup)
    (r : PortfolioRow) (hr : r ∈ rows) :
    TokenValue.find_by_mint (rows.map g) r.mint = .ok (g r) := by
  unfold TokenValue.find_by_mint
  rw [filter_mint_single g hg rows hnd r hr]

theorem targetBalance_token_pct (t : Token) (p : ℚ) :
    TargetBalance.token (.PercentageTargetBalance t p) = t := rfl

theorem targetBalance_resolve_pct (t : Token) (p cp tv : ℚ) :
    TargetBalance.resolve (.PercentageTargetBalance t p) cp tv =
      ⟨t, tv * (p / 100) / cp⟩ := rfl

/-- The accumulation pattern shared by `totalPortfolioValue` and
`changesQuoteValue`: fold quantity-times-looked-up-price over rows. -/
theorem foldlM_value_sum (P : List TokenValue) (val pr : PortfolioRow → ℚ) :
    ∀ rows : List PortfolioRow,
      (∀ r ∈ rows, TokenValue.find_by_mint P r.mint = .ok ⟨rowToken r, pr r⟩) →
      ∀ acc : ℚ,
        (rows.map (fun r => (⟨rowToken r, val r⟩ : TokenValue))).foldlM
          (fun total bal =>
            (TokenValue.find_by_token P bal.token).map
              (fun price => total + bal.value * price.value)) acc
        = .ok (acc + (rows.map (fun r => val r * pr r)).sum) := by
  intro rows
  induction rows with
  | nil => intro _ acc; simp [except_pure]
  | cons r rest ih =>
    intro hfind acc
    simp only [List.map_cons, List.foldlM_cons]
    rw [show TokenValue.find_by_token P (rowToken r) = Except.ok ⟨rowToken r, pr r⟩ from
      hfind r (List.mem_cons_self r rest)]
    simp only [except_map_ok, except_bind_ok]
    rw [ih (fun r2 h2 => hfind r2 (List.mem_cons_of_mem r h2)) (acc + val r * pr r)]
    congr 1
    rw [List.sum_cons]
    ring

theorem totalPortfolioValue_rows (rows : List PortfolioRow)
    (hnd : (rows.map PortfolioRow.mint).Nodup) :
    totalPortfolioValue (rowBalances rows) (rowPrices rows) =
      .ok ((rows.map (fun r => r.balance * r.price)).sum) := by
  unfold totalPortfolioValue rowBalances
  rw [foldlM_value_sum (rowPrices rows) (fun r => r.balance) (fun r => r.price) rows
    (fun r hr => find_by_mint_rows (fun r => ⟨rowToken r, r.price⟩) (fun _ => rfl)
      rows hnd r hr) 0]
  rw [zero_add]

theorem mapM_resolve (P : List TokenValue) (prF : PortfolioRow → ℚ) (total : ℚ) :
    ∀ rows : List PortfolioRow,
      (∀ r ∈ rows, TokenValue.find_by_mint P r.mint = .ok ⟨rowToken r, prF r⟩) →
      List.mapM (fun target =>
          (TokenValue.find_by_token P (TargetBalance.token target)).map
            (fun price => target.resolve price.value total))
        (rows.map (fun r => TargetBalance.PercentageTargetBalance (rowToken r) r.pct))
      = .ok (rows.map (fun r =>
          (⟨rowToken r, total * (r.pct / 100) / prF r⟩ : TokenValue))) := by
  intro rows
  induction rows with
  | nil => intro _; rfl
  | cons r rest ih =>
    intro hfind
    simp only [List.map_cons, List.mapM_cons, targetBalance_token_pct,
      targetBalance_resolve_pct]
    rw [show TokenValue.find_by_token P (rowToken r) = Except.ok ⟨rowToken r, prF r⟩ from
      hfind r (List.mem_cons_self r rest)]
    simp only [except_map_ok, except_bind_ok]
    rw [ih (fun r2 h2 => hfind r2 (List.mem_cons_of_mem r h2))]
    simp only [except_bind_ok]
    rfl

theorem mapM_calculate (C : List TokenValue) (dv bF : PortfolioRow → ℚ) :
    ∀ rows : List PortfolioRow,
      (∀ r ∈ rows, TokenValue.find_by_mint C r.mint = .ok ⟨rowToken r, bF r⟩) →
      calculate_required_balance_changes C
          (rows.map (fun r => (⟨rowToken r, dv r⟩ : TokenValue)))
        = .ok (rows.map (fun r => (⟨rowToken r, dv r - bF r⟩ : TokenValue))) := by
  intro rows
  induction rows with
  | nil => intro _; rfl
  | cons r rest ih =>
    intro hfind
    unfold calculate_required_balance_changes at ih ⊢
    simp only [List.map_cons, List.mapM_cons]
    rw [show TokenValue.find_by_token C (rowToken r) = Except.ok ⟨rowToken r, bF r⟩ from
      hfind r (List.mem_cons_self r rest)]
    simp only [except_map_ok, except_bind_ok]
    rw [ih (fun r2 h2 => hfind r2 (List.mem_cons_of_mem r h2))]
    simp only [except_bind_ok]
    rfl

theorem list_sum_map_sub {α : Type} (l : List α) (f g : α → ℚ) :
    (l.map (fun a => f a - g a)).sum = (l.map f).sum - (l.map g).sum := by
  induction l with
  | nil => simp
  | cons a t ih =>
    rw [List.map_cons, List.map_cons, List.map_cons, List.sum_cons, List.sum_cons,
      List.sum_cons, ih]
    ring

/-- C3 counterexample: the deltas of end-to-end scenario 5 (current
balances 0.6 ETH / 0.01 BTC / 7000 USDT, desired balances 0.5 ETH /
0.05 BTC, prices 4000 / 60000 / 1).  The change list is computed exactly
as the code does, yet its quote-denominated value is 2000, not 0 — far
beyond token rounding, because the desired balances do not cover the
whole portfolio. -/
theorem rebalance_changes_value_nonzero :
    calculate_required_balance_changes
      [⟨⟨"ETH".toList, 1, 6⟩, 3/5⟩, ⟨⟨"BTC".toList, 2, 6⟩, 1/100⟩,
        ⟨⟨"USDT".toList, 3, 6⟩, 7000⟩]
      [⟨⟨"ETH".toList, 1, 6⟩, 1/2⟩, ⟨⟨"BTC".toList, 2, 6⟩, 1/20⟩]
      = .ok [⟨⟨"ETH".toList, 1, 6⟩, 1/2 - 3/5⟩, ⟨⟨"BTC".toList, 2, 6⟩, 1/20 - 1/100⟩] ∧
    changesQuoteValue
      [⟨⟨"ETH".toList, 1, 6⟩, 4000⟩, ⟨⟨"BTC".toList, 2, 6⟩, 60000⟩,
        ⟨⟨"USDT".toList, 3, 6⟩, 1⟩]
      [⟨⟨"ETH".toList, 1, 6⟩, 1/2 - 3/5⟩, ⟨⟨"BTC".toList, 2, 6⟩, 1/20 - 1/100⟩]
      = .ok 2000 := by
  constructor
  · rfl
  · have h : changesQuoteValue
        [⟨⟨"ETH".toList, 1, 6⟩, 4000⟩, ⟨⟨"BTC".toList, 2, 6⟩, 60000⟩,
          ⟨⟨"USDT".toList, 3, 6⟩, 1⟩]
        [⟨⟨"ETH".toList, 1, 6⟩, 1/2 - 3/5⟩, ⟨⟨"BTC".toList, 2, 6⟩, 1/20 - 1/100⟩]
        = .ok (0 + (1/2 - 3/5) * 4000 + (1/20 - 1/100) * 60000) := rfl
    rw [h]
    norm_num

/-- C3 (amended).  When the percentage targets cover exactly the tokens
of the current balances (one row per token, pairwise-distinct mints),
every price is non-zero, and the target percentages sum to 100, the
deltas produced by the rebalancing pipeline of
`LiveWalletBalancer.balance` satisfy `Σ delta_i * price_i = 0` exactly
(in exact rational arithmetic, i.e. up to the per-token rounding the
Decimal implementation performs). -/
theorem rebalance_preserves_value (rows : List PortfolioRow)
    (hnd : (rows.map PortfolioRow.mint).Nodup)
    (hprice : ∀ r ∈ rows, r.price ≠ 0)
    (hpct : (rows.map PortfolioRow.pct).sum = 100) :
    rebalanceChangesValue (rowBalances rows) (rowPrices rows) (rowTargets rows) = .ok 0 := by
  have hfindP : ∀ r ∈ rows,
      TokenValue.find_by_mint (rowPrices rows) r.mint = .ok ⟨rowToken r, r.price⟩ :=
    fun r hr => find_by_mint_rows (fun r => ⟨rowToken r, r.price⟩) (fun _ => rfl)
      rows hnd r hr
  have hfindB : ∀ r ∈ rows,
      TokenValue.find_by_mint (rowBalances rows) r.mint = .ok ⟨rowToken r, r.balance⟩ :=
    fun r hr => find_by_mint_rows (fun r => ⟨rowToken r, r.balance⟩) (fun _ => rfl)
      rows hnd r hr
  have hres : resolveTargets (rowTargets rows) (rowPrices rows)
      ((rows.map (fun r => r.balance * r.price)).sum) =
      .ok (rows.map (fun r =>
        (⟨rowToken r,
          (rows.map (fun r => r.balance * r.price)).sum * (r.pct / 100) / r.price⟩ :
          TokenValue))) := by
    unfold resolveTargets rowTargets
    exact mapM_resolve (rowPrices rows) (fun r => r.price) _ rows hfindP
  have hcalc := mapM_calculate (rowBalances rows)
    (fun r => (rows.map (fun r => r.balance * r.price)).sum * (r.pct / 100) / r.price)
    (fun r => r.balance) rows hfindB
  have hval := foldlM_value_sum (rowPrices rows)
    (fun r => (rows.map (fun r => r.balance * r.price)).sum * (r.pct / 100) / r.price
      - r.balance)
    (fun r => r.price) rows hfindP 0
  have hsum : (rows.map (fun r =>
      ((rows.map (fun r => r.balance * r.price)).sum * (r.pct / 100) / r.price
        - r.balance) * r.price)).sum = 0 := by
    rw [List.map_congr_left (g := fun r =>
        ((rows.map (fun r => r.balance * r.price)).sum / 100) * r.pct
          - r.balance * r.price)
      (fun r hr => by
        have hp := hprice r hr
        field_simp
        ring)]
    rw [list_sum_map_sub, List.sum_map_mul_left, hpct]
    rw [div_mul_cancel₀ _ (by norm_num : (100 : ℚ) ≠ 0)]
    exact sub_self _
  unfold rebalanceChangesValue
  rw [totalPortfolioValue_rows rows hnd]
  show (match resolveTargets (rowTargets rows) (rowPrices rows)
      ((rows.map (fun r => r.balance * r.price)).sum) with
    | .error e => (.error e : Except String ℚ)
    | .ok resolved =>
      match calculate_required_balance_changes (rowBalances rows) resolved with
      | .error e => .error e
      | .ok deltas => changesQuoteValue (rowPrices rows) deltas) = .ok 0
  rw [hres]
  show (match calculate_required_balance_changes (rowBalances rows) _ with
    | .error e => (.error e : Except String ℚ)
    | .ok deltas => changesQuoteValue (rowPrices rows) deltas) = .ok 0
  rw [hcalc]
  show changesQuoteValue (rowPrices rows) _ = .ok 0
  unfold changesQuoteValue
  rw [hval, hsum, zero_add]

/-- C3 witness: the amended statement applied to the scenario-5
portfolio with percentage targets 20/30/50. -/
theorem rebalance_preserves_value_witness :
    rebalanceChangesValue (rowBalances scenarioRows) (rowPrices scenarioRows)
      (rowTargets scenarioRows) = .ok 0 :=
  rebalance_preserves_value scenarioRows (by decide)
    (by intro r hr; fin_cases hr <;> norm_num [scenarioRows])
    (by norm_num [scenarioRows])

end Mango
